import Mathlib

/-!
# A-pen-app/ocr: prompt catalogue and OCR client

A shallow embedding of `models/ocr.go` and `store/openai.go`.

* Go `string` values are Lean `String`s: text made of Unicode code points. A
  Go string whose bytes are not valid UTF-8 has no counterpart here.
* A Go pointer `*string` is an `Option String`: `nil` is `none`.
* A Go `error` result is an `Option GoError`: `nil` is `none`.
* The two collaborators of the client (the completion backend and the
  message queue) are functions held by the store; every call made on them is
  recorded, in order, in the list of effects a scan returns beside its result.
  The `context.Context` of a scan is handed to them unchanged and is left out.
* `encoding/json` is embedded as a reader and a writer of JSON text, with the
  rules of the struct tags of `models/ocr.go`.
-/

namespace Ocr

/-! ## models/ocr.go -/

/-- The record `OCRRawInfo` (models/ocr.go:7-16); every field is a `*string`. -/
structure OCRRawInfo where
  IdentifyURL : Option String
  Name : Option String
  Birthday : Option String
  Position : Option String
  Department : Option String
  Facility : Option String
  ValidDate : Option String
  SpecialtyValidDate : Option String
  deriving DecidableEq, Repr

/-- The zero value `models.OCRRawInfo{}`: every pointer is nil. -/
def OCRRawInfo.zero : OCRRawInfo :=
  ⟨none, none, none, none, none, none, none, none⟩

/-- The record `OCRInfo` (models/ocr.go:18-23); the client does not build one. -/
structure OCRInfo where
  Name : Option String
  Position : Option String
  Department : Option String
  Facility : Option String
  deriving DecidableEq, Repr

/-- The type `OCRMessageType` (models/ocr.go:33), a named string type. -/
abbrev OCRMessageType := String

/-- The constant `OCRMessageTypeIdentifyOCR` (models/ocr.go:36). -/
def OCRMessageTypeIdentifyOCR : OCRMessageType := "identify_ocr"

/-- The type `OCRTopic` (models/ocr.go:39), a named string type. -/
abbrev OCRTopic := String

/-- The constant `OCRTopicDev` (models/ocr.go:42). -/
def OCRTopicDev : OCRTopic := "wanderer-dev"

/-- The constant `OCRTopicProd` (models/ocr.go:43). -/
def OCRTopicProd : OCRTopic := "wanderer-prod"

/-- The type `PlatformType` (models/ocr.go:46), a named string type: any string
can be converted to it, so a value need not be one of the three constants. -/
abbrev PlatformType := String

/-- The constant `PlatformTypeApen` (models/ocr.go:49). -/
def PlatformTypeApen : PlatformType := "apen"

/-- The constant `PlatformTypeNurse` (models/ocr.go:50). -/
def PlatformTypeNurse : PlatformType := "nurse"

/-- The constant `PlatformTypePhar` (models/ocr.go:51). -/
def PlatformTypePhar : PlatformType := "phar"

/-- The constant `SystemContent` (models/ocr.go:67). -/
def SystemContent : String :=
  "You are a helpful assistant that analyzes images and outputs information with JSON format."

/-- The constant `NamePrompt` (models/ocr.go:69-75), one literal per source line. -/
def NamePrompt : String :=
  "\n" ++
  "這是一張參加證、識別證、執照、證書、或名片，請判斷其中的中文姓名，並以以下 JSON 格式輸出：\n" ++
  "\x7b\n" ++
  "  \"name\": \"中文姓名\"\n" ++
  "\x7d\n" ++
  "如果找不到中文姓名，請將 \"name\" 的值設為空字串。\n" ++
  "\t"

/-- The constant `apenInfoPrompt` (models/ocr.go:77-111), one literal per source line. -/
def apenInfoPrompt : String :=
  "\n" ++
  "請分析這張圖片（可能是醫師的識別證、執照、證書或名片），並提取以下資訊：\n" ++
  "\n" ++
  "**需要辨識的欄位：**\n" ++
  "\n" ++
  "1. **name（姓名）**: 中文姓名\n" ++
  "2. **birthday（生日）**: 格式為 YYYY-MM-DD\n" ++
  "3. **department（科別）**: 中文科別名稱\n" ++
  "4. **facility（執業場所）**: 任職場所或執業場所\n" ++
  "   - 注意：學生不需要填寫此欄位\n" ++
  "5. **position（職級）**: 醫師職級，僅限以下三種：\n" ++
  "   - \"PGY\" - 不分科醫師\n" ++
  "   - \"Resident\" - 住院醫師\n" ++
  "   - \"VS\" - 主治醫師（專科證書必定為 VS）\n" ++
  "   - 如果只標註「醫師」而無具體職級，或為學生則不填\n" ++
  "6. **valid_date（醫師證書生效日期）**: 格式為 YYYY-MM-DD\n" ++
  "   - 僅當圖片為「醫師證書」時才需辨識\n" ++
  "   - 執業執照不需要填寫此欄位\n" ++
  "7. **specialty_valid_date（專科證書生效日期）**: 格式為 YYYY-MM-DD\n" ++
  "   - 僅當圖片為「專科證書」時才需辨識\n" ++
  "   - 注意：這是「生效日期」或「頒發日期」，不是「有效日期」\n" ++
  "\n" ++
  "**輸出格式：**\n" ++
  "請以以下 JSON 格式輸出（如果找不到對應資料或無法辨識，請將該欄位的值設為 null）：\n" ++
  "\n" ++
  "\x7b\n" ++
  "  \"name\": \"中文姓名\",\n" ++
  "  \"birthday\": \"YYYY-MM-DD\",\n" ++
  "  \"position\": \"PGY、Resident 或 VS\",\n" ++
  "  \"department\": \"科別\",\n" ++
  "  \"facility\": \"執業場所/任職場所\",\n" ++
  "  \"valid_date\": \"YYYY-MM-DD\",\n" ++
  "  \"specialty_valid_date\": \"YYYY-MM-DD\"\n" ++
  "\x7d\n" ++
  "\t"

/-- The constant `nurseInfoPrompt` (models/ocr.go:113-137), one literal per source line. -/
def nurseInfoPrompt : String :=
  "\n" ++
  "請分析這張圖片（可能是護理師的識別證、執照、證書或名片），並提取以下資訊：\n" ++
  "\n" ++
  "**需要辨識的欄位：**\n" ++
  "\n" ++
  "1. **name（姓名）**: 中文姓名\n" ++
  "2. **birthday（生日）**: 格式為 YYYY-MM-DD\n" ++
  "3. **department（科別）**: 中文科別名稱\n" ++
  "4. **facility（執業場所）**: 任職場所或執業場所\n" ++
  "   - 注意：學生不需要填寫此欄位\n" ++
  "5. **valid_date（護理師證書生效日期）**: 格式為 YYYY-MM-DD\n" ++
  "   - 僅當圖片為「護理師證書」時才需辨識\n" ++
  "   - 執業執照不需要填寫此欄位\n" ++
  "\n" ++
  "**輸出格式：**\n" ++
  "請以以下 JSON 格式輸出（如果找不到對應資料或無法辨識，請將該欄位的值設為 null）：\n" ++
  "\n" ++
  "\x7b\n" ++
  "  \"name\": \"中文姓名\",\n" ++
  "  \"birthday\": \"YYYY-MM-DD\",\n" ++
  "  \"department\": \"科別\",\n" ++
  "  \"facility\": \"執業場所/任職場所\",\n" ++
  "  \"valid_date\": \"YYYY-MM-DD\"\n" ++
  "\x7d\n" ++
  "\t"

/-- The constant `pharInfoPrompt` (models/ocr.go:139-161), one literal per source line. -/
def pharInfoPrompt : String :=
  "\n" ++
  "請分析這張圖片（可能是藥師的識別證、執照、證書或名片），並提取以下資訊：\n" ++
  "\n" ++
  "**需要辨識的欄位：**\n" ++
  "\n" ++
  "1. **name（姓名）**: 中文姓名\n" ++
  "2. **birthday（生日）**: 格式為 YYYY-MM-DD\n" ++
  "3. **facility（執業場所）**: 任職場所或執業場所\n" ++
  "   - 注意：學生不需要填寫此欄位\n" ++
  "4. **valid_date（藥師證書生效日期）**: 格式為 YYYY-MM-DD\n" ++
  "   - 僅當圖片為「藥師證書」時才需辨識\n" ++
  "   - 執業執照不需要填寫此欄位\n" ++
  "\n" ++
  "**輸出格式：**\n" ++
  "請以以下 JSON 格式輸出（如果找不到對應資料或無法辨識，請將該欄位的值設為 null）：\n" ++
  "\n" ++
  "\x7b\n" ++
  "  \"name\": \"中文姓名\",\n" ++
  "  \"birthday\": \"YYYY-MM-DD\",\n" ++
  "  \"facility\": \"執業場所/任職場所\",\n" ++
  "  \"valid_date\": \"YYYY-MM-DD\"\n" ++
  "\x7d\n" ++
  "\t"

/-- The function `GetInfoPrompt` (models/ocr.go:54-65): a switch on the
profession string with a default branch. -/
def GetInfoPrompt (professionType : PlatformType) : String :=
  if professionType = PlatformTypeApen then apenInfoPrompt
  else if professionType = PlatformTypeNurse then nurseInfoPrompt
  else if professionType = PlatformTypePhar then pharInfoPrompt
  else apenInfoPrompt

/-! ## encoding/json: reading JSON text

`json.Unmarshal` first checks that its whole input is one JSON value with
blanks around it, then stores the value in its target. `parseJSON` is the
first step: it reads the text into a `JSON` value, or fails where the
library reports a `*json.SyntaxError`. -/

/-- A JSON value. A number keeps its text; the members of an object keep the
order and the repetitions of the text. -/
inductive JSON where
  | null
  | bool (b : Bool)
  | num (text : List Char)
  | str (s : String)
  | arr (elems : List JSON)
  | obj (members : List (String × JSON))
  deriving Repr

/-- The blanks of JSON text: space, tab, carriage return, line feed. -/
def isSpace (c : Char) : Bool :=
  c = ' ' || c = '\t' || c = '\r' || c = '\n'

/-- Drops the blanks that start the text. -/
def skipSpace : List Char → List Char
  | [] => []
  | c :: cs => if isSpace c then skipSpace cs else c :: cs

/-- The value of a hexadecimal digit, in either case. -/
def hexVal (c : Char) : Option Nat :=
  if '0' ≤ c ∧ c ≤ '9' then some (c.toNat - 48)
  else if 'a' ≤ c ∧ c ≤ 'f' then some (c.toNat - 87)
  else if 'A' ≤ c ∧ c ≤ 'F' then some (c.toNat - 55)
  else none

/-- The library's `getu4`: the number written by the four hexadecimal digits
of a `\u` escape. -/
def getu4 (a b c d : Char) : Option Nat :=
  match hexVal a, hexVal b, hexVal c, hexVal d with
  | some x, some y, some z, some w => some (((x * 16 + y) * 16 + z) * 16 + w)
  | _, _, _, _ => none

/-- The replacement character U+FFFD. -/
def replacementChar : Char := Char.ofNat 0xFFFD

/-- The library's `utf16.IsSurrogate`. -/
def isSurrogate (r : Nat) : Bool := 0xD800 ≤ r && r < 0xE000

/-- The library's `utf16.DecodeRune`: the code point of a surrogate pair, the
replacement character when the two numbers are not a high and a low half. -/
def decodeSurrogates (r1 r2 : Nat) : Char :=
  if 0xD800 ≤ r1 ∧ r1 < 0xDC00 ∧ 0xDC00 ≤ r2 ∧ r2 < 0xE000 then
    Char.ofNat ((r1 - 0xD800) * 1024 + (r2 - 0xDC00) + 0x10000)
  else replacementChar

/-- The character a one-letter escape stands for. -/
def unescapeChar (e : Char) : Option Char :=
  if e = '\"' then some '\"'
  else if e = '\\' then some '\\'
  else if e = '/' then some '/'
  else if e = 'b' then some (Char.ofNat 8)
  else if e = 'f' then some (Char.ofNat 12)
  else if e = 'n' then some '\n'
  else if e = 'r' then some '\r'
  else if e = 't' then some '\t'
  else none

/-- The number a `\u` escape writes, when the text starts with one. -/
def readU4 : List Char → Option Nat
  | '\\' :: 'u' :: a :: b :: c :: d :: _ => getu4 a b c d
  | _ => none

/-- Reads an escape from just after its backslash, as the library's `unquote`
does: the character it stands for and how many characters of the text it
takes. A `\u` escape that writes half of a surrogate pair is joined with the
other half when that follows (twelve characters in all, the first backslash
counted), and stands for U+FFFD otherwise. -/
def readEscape : List Char → Option (Char × Nat)
  | [] => none
  | e :: rest =>
    if e = 'u' then
      match rest with
      | a :: b :: c :: d :: rest2 =>
        match getu4 a b c d with
        | none => none
        | some r =>
          if isSurrogate r then
            match readU4 rest2 with
            | some r2 =>
              if decodeSurrogates r r2 ≠ replacementChar then
                some (decodeSurrogates r r2, 11)
              else some (replacementChar, 5)
            | none => some (replacementChar, 5)
          else some (Char.ofNat r, 5)
      | _ => none
    else
      match unescapeChar e with
      | some ch => some (ch, 1)
      | none => none

/-- Reads a string literal from just after its opening quote: the characters
it stands for (appended to `acc`) and the text after its closing quote. `skip`
counts the characters of an escape still to pass over. A control character, an
unknown escape or the end of the text is an error. -/
def readString : List Char → Nat → List Char → Option (String × List Char)
  | [], _, _ => none
  | _ :: rest, skip + 1, acc => readString rest skip acc
  | c :: rest, 0, acc =>
    if c = '\"' then some (String.mk acc, rest)
    else if c = '\\' then
      match readEscape rest with
      | some (ch, n) => readString rest n (acc ++ [ch])
      | none => none
    else if c.toNat < 0x20 then none
    else readString rest 0 (acc ++ [c])

/-- A decimal digit. -/
def isDigit (c : Char) : Bool := '0' ≤ c && c ≤ '9'

/-- Splits the text after its leading digits. -/
def takeDigits : List Char → List Char × List Char
  | [] => ([], [])
  | c :: cs =>
    if isDigit c then ((takeDigits cs).1.cons c, (takeDigits cs).2) else ([], c :: cs)

/-- The integer part of a number: a lone `0`, or a digit from 1 to 9 and the
digits after it. -/
def readInt : List Char → Option (List Char × List Char)
  | [] => none
  | c :: cs =>
    if c = '0' then some (['0'], cs)
    else if isDigit c then some (c :: (takeDigits cs).1, (takeDigits cs).2)
    else none

/-- The optional fraction of a number: a dot and at least one digit. -/
def readFrac : List Char → Option (List Char × List Char)
  | '.' :: cs =>
    if (takeDigits cs).1 = [] then none
    else some ('.' :: (takeDigits cs).1, (takeDigits cs).2)
  | cs => some ([], cs)

/-- The digits of an exponent, at least one. -/
def readExpDigits (pre cs : List Char) : Option (List Char × List Char) :=
  if (takeDigits cs).1 = [] then none
  else some (pre ++ (takeDigits cs).1, (takeDigits cs).2)

/-- The optional exponent of a number: `e` or `E`, an optional sign, and at
least one digit. -/
def readExp : List Char → Option (List Char × List Char)
  | [] => some ([], [])
  | e :: cs =>
    if e = 'e' ∨ e = 'E' then
      match cs with
      | s :: cs2 =>
        if s = '+' ∨ s = '-' then readExpDigits [e, s] cs2
        else readExpDigits [e] (s :: cs2)
      | [] => none
    else some ([], e :: cs)

/-- Reads a number that has no sign: its text and the text after it. -/
def readUnsigned (cs : List Char) : Option (List Char × List Char) :=
  match readInt cs with
  | none => none
  | some (i, r1) =>
    match readFrac r1 with
    | none => none
    | some (f, r2) =>
      match readExp r2 with
      | none => none
      | some (e, r3) => some (i ++ f ++ e, r3)

/-- Reads a number: an optional minus sign and an unsigned number. -/
def readNumber : List Char → Option (List Char × List Char)
  | '-' :: cs =>
    match readUnsigned cs with
    | some (n, r) => some ('-' :: n, r)
    | none => none
  | cs => readUnsigned cs

/-- The library's `maxNestingDepth`: arrays and objects nest this deep at most. -/
def maxNestingDepth : Nat := 10000

mutual
/-- Reads one JSON value from text that does not start with a blank: the value
and the text after it. `depth` counts the arrays and objects that are open.
`fuel` bounds the calls; `parseJSON` starts with more than the text is long,
which is enough for every text (`parseJSON_fuel`). -/
def readValue : Nat → Nat → List Char → Option (JSON × List Char)
  | 0, _, _ => none
  | _, _, [] => none
  | fuel + 1, depth, c :: cs =>
    if c = '\x7b' then
      if maxNestingDepth < depth + 1 then none
      else
        match skipSpace cs with
        | [] => none
        | d :: rest =>
          if d = '\x7d' then some (JSON.obj [], rest)
          else readMembers fuel (depth + 1) (d :: rest) []
    else if c = '[' then
      if maxNestingDepth < depth + 1 then none
      else
        match skipSpace cs with
        | [] => none
        | d :: rest =>
          if d = ']' then some (JSON.arr [], rest)
          else readElems fuel (depth + 1) (d :: rest) []
    else if c = '\"' then
      match readString cs 0 [] with
      | some (s, rest) => some (JSON.str s, rest)
      | none => none
    else if c = 't' then
      match cs with
      | 'r' :: 'u' :: 'e' :: rest => some (JSON.bool true, rest)
      | _ => none
    else if c = 'f' then
      match cs with
      | 'a' :: 'l' :: 's' :: 'e' :: rest => some (JSON.bool false, rest)
      | _ => none
    else if c = 'n' then
      match cs with
      | 'u' :: 'l' :: 'l' :: rest => some (JSON.null, rest)
      | _ => none
    else
      match readNumber (c :: cs) with
      | some (n, rest) => some (JSON.num n, rest)
      | none => none
/-- Reads the elements of an array from its next element on, up to the closing
bracket: the array (`acc` holds the elements already read) and the text after. -/
def readElems : Nat → Nat → List Char → List JSON → Option (JSON × List Char)
  | 0, _, _, _ => none
  | fuel + 1, depth, cs, acc =>
    match readValue fuel depth cs with
    | none => none
    | some (v, rest) =>
      match skipSpace rest with
      | [] => none
      | d :: rest2 =>
        if d = ',' then readElems fuel depth (skipSpace rest2) (acc ++ [v])
        else if d = ']' then some (JSON.arr (acc ++ [v]), rest2)
        else none
/-- Reads the members of an object from its next key on, up to the closing
brace: the object (`acc` holds the members already read) and the text after. -/
def readMembers : Nat → Nat → List Char → List (String × JSON) → Option (JSON × List Char)
  | 0, _, _, _ => none
  | _, _, [], _ => none
  | fuel + 1, depth, q :: cs, acc =>
    if q = '\"' then
      match readString cs 0 [] with
      | none => none
      | some (k, rest) =>
        match skipSpace rest with
        | [] => none
        | colon :: rest2 =>
          if colon = ':' then
            match readValue fuel depth (skipSpace rest2) with
            | none => none
            | some (v, rest3) =>
              match skipSpace rest3 with
              | [] => none
              | d :: rest4 =>
                if d = ',' then readMembers fuel depth (skipSpace rest4) (acc ++ [(k, v)])
                else if d = '\x7d' then some (JSON.obj (acc ++ [(k, v)]), rest4)
                else none
          else none
    else none
end

/-- Reads a whole text as one JSON value with blanks around it; `none` where
`json.Unmarshal` reports a syntax error. -/
def parseJSON (data : String) : Option JSON :=
  match readValue (data.data.length + 1) 0 (skipSpace data.data) with
  | some (v, rest) => if skipSpace rest = [] then some v else none
  | none => none

/-! ## encoding/json: storing a value in a struct -/

/-- A Go `error` value, as far as the client can tell errors apart. -/
inductive GoError where
  /-- The error `fmt.Errorf(msg)` makes. -/
  | errorf (msg : String)
  /-- A `*json.SyntaxError`: the text is not one JSON value. -/
  | jsonSyntaxError
  /-- A `*json.UnmarshalTypeError`: a JSON value of the kind `value` stands
  where the Go field `field` cannot hold it. -/
  | jsonTypeError (value : String) (field : String)
  /-- An error made by a collaborator (the completion backend or the queue). -/
  | external (description : String)
  deriving DecidableEq, Repr

/-- The library's `foldRune` on the runes that matter for names written in
ASCII letters: a small letter folds to its capital, and so do the two other
runes whose case orbit holds an ASCII letter, U+017F (long s) and U+212A
(Kelvin sign). Every other rune folds to a rune outside ASCII, which is left
as it is here: it equals no character of a folded ASCII name either way. -/
def foldRune (c : Char) : Char :=
  if 'a' ≤ c ∧ c ≤ 'z' then Char.ofNat (c.toNat - 32)
  else if c = Char.ofNat 0x17F then 'S'
  else if c = Char.ofNat 0x212A then 'K'
  else c

/-- The library's `foldName`: the name with every rune folded. -/
def foldName (s : String) : List Char := s.data.map foldRune

/-- The kind of a JSON value, as `UnmarshalTypeError.Value` names it. -/
def JSON.kind : JSON → String
  | .null => "null"
  | .bool _ => "bool"
  | .num _ => "number"
  | .str _ => "string"
  | .arr _ => "array"
  | .obj _ => "object"

/-- The fields of `OCRRawInfo`, in the order of the struct. -/
inductive RawField where
  | IdentifyURL | Name | Birthday | Position | Department | Facility
  | ValidDate | SpecialtyValidDate
  deriving DecidableEq, Repr

/-- Every field of `OCRRawInfo`, in the order of the struct. -/
def RawField.all : List RawField :=
  [.IdentifyURL, .Name, .Birthday, .Position, .Department, .Facility,
   .ValidDate, .SpecialtyValidDate]

/-- The key of the field's `json` tag (models/ocr.go:8-15). -/
def RawField.key : RawField → String
  | .IdentifyURL => "identify_url"
  | .Name => "name"
  | .Birthday => "birthday"
  | .Position => "position"
  | .Department => "department"
  | .Facility => "facility"
  | .ValidDate => "valid_date"
  | .SpecialtyValidDate => "specialty_valid_date"

/-- The Go name of the field. -/
def RawField.goName : RawField → String
  | .IdentifyURL => "IdentifyURL"
  | .Name => "Name"
  | .Birthday => "Birthday"
  | .Position => "Position"
  | .Department => "Department"
  | .Facility => "Facility"
  | .ValidDate => "ValidDate"
  | .SpecialtyValidDate => "SpecialtyValidDate"

/-- The record with one field assigned. -/
def RawField.set (f : RawField) (v : Option String) (r : OCRRawInfo) : OCRRawInfo :=
  match f with
  | .IdentifyURL => { r with IdentifyURL := v }
  | .Name => { r with Name := v }
  | .Birthday => { r with Birthday := v }
  | .Position => { r with Position := v }
  | .Department => { r with Department := v }
  | .Facility => { r with Facility := v }
  | .ValidDate => { r with ValidDate := v }
  | .SpecialtyValidDate => { r with SpecialtyValidDate := v }

/-- The field an object key is stored in: the field whose tag is the key, or
else the field whose folded tag is the folded key; a key that matches no field
is passed over. -/
def findField (key : String) : Option RawField :=
  match RawField.all.find? (fun f => f.key = key) with
  | some f => some f
  | none => RawField.all.find? (fun f => foldName f.key = foldName key)

/-- Stores a JSON value in a `*string` field: `null` sets the pointer to nil,
a string sets it to point to that string, any other value is a type error. -/
def storePointer (f : RawField) : JSON → Except GoError (Option String)
  | .null => .ok none
  | .str s => .ok (some s)
  | v => .error (.jsonTypeError v.kind f.goName)

/-- Stores the members of an object in the record, in the order of the text,
so that of two members stored in one field the later one stays. The first type
error is the error of the whole call. -/
def storeMembers : List (String × JSON) → OCRRawInfo → Except GoError OCRRawInfo
  | [], r => .ok r
  | (k, v) :: ms, r =>
    match findField k with
    | none => storeMembers ms r
    | some f =>
      match storePointer f v with
      | .error e => .error e
      | .ok p => storeMembers ms (f.set p r)

/-- The call `json.Unmarshal([]byte(data), &ocr)` for `ocr` of type
`OCRRawInfo` holding `target`: the value of `ocr` after a call that returns
nil, or the error returned. After an error the callers read `ocr` no more, so
its value is not given then. The text `null` changes nothing; a value that is
neither `null` nor an object is a type error. -/
def unmarshalRawInfo (data : String) (target : OCRRawInfo) : Except GoError OCRRawInfo :=
  match parseJSON data with
  | none => .error .jsonSyntaxError
  | some .null => .ok target
  | some (.obj ms) => storeMembers ms target
  | some v => .error (.jsonTypeError v.kind "OCRRawInfo")

/-- Whether an object key is stored in the one field of the struct of
`ScanName`, whose tag is `name`. -/
def isNameKey (key : String) : Bool :=
  key = "name" || foldName key = foldName "name"

/-- Stores the members of an object in the field `Name string` of the struct
of `ScanName`: a string is assigned, `null` changes nothing, any other value
is a type error. -/
def storeNameMembers : List (String × JSON) → String → Except GoError String
  | [], name => .ok name
  | (k, v) :: ms, name =>
    if isNameKey k then
      match v with
      | .null => storeNameMembers ms name
      | .str s => storeNameMembers ms s
      | v => .error (.jsonTypeError v.kind "Name")
    else storeNameMembers ms name

/-- The call `json.Unmarshal([]byte(data), &ocr)` for the struct of `ScanName`
(store/openai.go:79-83), whose field `Name` holds `target`: the value of
`ocr.Name` after a call that returns nil, or the error returned. -/
def unmarshalName (data : String) (target : String) : Except GoError String :=
  match parseJSON data with
  | none => .error .jsonSyntaxError
  | some .null => .ok target
  | some (.obj ms) => storeNameMembers ms target
  | some v => .error (.jsonTypeError v.kind "struct")

/-! ## encoding/json: writing a record as JSON text -/

/-- The table `hex` of the library. -/
def hexDigit (n : Nat) : Char := "0123456789abcdef".data.getD n '0'

/-- The text `json.Marshal` writes for one character of a string: a short
escape for the quote, the backslash and five control characters, a `\u00xx`
escape for the other control characters and for `<`, `>` and `&`, a `\u202x`
escape for U+2028 and U+2029, the character itself otherwise. -/
def escapeChar (c : Char) : List Char :=
  if c = '\\' ∨ c = '\"' then ['\\', c]
  else if c = Char.ofNat 8 then ['\\', 'b']
  else if c = Char.ofNat 12 then ['\\', 'f']
  else if c = '\n' then ['\\', 'n']
  else if c = '\r' then ['\\', 'r']
  else if c = '\t' then ['\\', 't']
  else if c.toNat < 0x20 ∨ c = '<' ∨ c = '>' ∨ c = '&' then
    ['\\', 'u', '0', '0', hexDigit (c.toNat / 16), hexDigit (c.toNat % 16)]
  else if c = Char.ofNat 0x2028 ∨ c = Char.ofNat 0x2029 then
    ['\\', 'u', '2', '0', '2', hexDigit (c.toNat % 16)]
  else [c]

/-- The characters of a string, each as `json.Marshal` writes it. -/
def escapeChars : List Char → List Char
  | [] => []
  | c :: cs => escapeChar c ++ escapeChars cs

/-- A string as a JSON string literal. -/
def quote (s : String) : List Char :=
  '\"' :: (escapeChars s.data ++ ['\"'])

/-- The message `OCREventMessage` as the composite literal of `ScanRawInfo`
builds it (store/openai.go:139-145): `Payload` holds the record `ocr` that the
literal assigns to it. (The declaration at models/ocr.go:27 gives the field
the type `string`; the embedding follows the literal.) `CreatedAt` is a
reading of the clock; `Type_` is the field `Type`. -/
structure OCREventMessage where
  UserID : String
  Payload : OCRRawInfo
  CreatedAt : Nat
  Type_ : String
  Source : String
  deriving DecidableEq, Repr

/-- The struct `OpenAIConfig` (store/openai.go:15-20). -/
structure OpenAIConfig where
  MaxToken : Int
  Model : String
  Topic : OCRTopic
  MessageType : OCRMessageType
  deriving DecidableEq, Repr

/-- A part of a user message: a text or a reference to an image. -/
inductive ContentPart where
  | text (t : String)
  | imageURL (url : String)
  deriving DecidableEq, Repr

/-- A chat message of a completion request. -/
inductive ChatMessage where
  | system (content : String)
  | user (parts : List ContentPart)
  deriving DecidableEq, Repr

/-- The response format of a completion request; the client asks for a JSON
object only. -/
inductive ResponseFormat where
  | jsonObject
  deriving DecidableEq, Repr

/-- The request `openai.ChatCompletionNewParams`, with the fields the client sets. -/
structure ChatCompletionNewParams where
  Model : String
  MaxTokens : Int
  Messages : List ChatMessage
  Format : ResponseFormat
  deriving DecidableEq, Repr

/-- One choice of a completion; `Content` is `choice.Message.Content`. -/
structure ChatCompletionChoice where
  Content : String
  deriving DecidableEq, Repr

/-- The answer `openai.ChatCompletion`, with the field the client reads. -/
structure ChatCompletion where
  Choices : List ChatCompletionChoice
  deriving DecidableEq, Repr

/-- The completion backend behind a `*openai.Client` that is not nil: what
`Chat.Completions.New` returns for a request. -/
abbrev Client := ChatCompletionNewParams → Except GoError ChatCompletion

/-- The queue `mq.MQ`: what `Send` returns for a topic and a message, nil
(`none`) or an error. -/
abbrev MQ := String → OCREventMessage → Option GoError

/-- The struct `ocrStore` (store/openai.go:22-26). The pointer `c` is nil when
it is `none`; `cfg` is never nil, since `NewOpenAIStore` is the only way to a
store outside the package; `mq` is taken to be a queue, not a nil interface. -/
structure ocrStore where
  mq : MQ
  c : Option Client
  cfg : OpenAIConfig

/-- The constant `openai.ChatModelGPT4o` of the client library. -/
def ChatModelGPT4o : String := "gpt-4o"

/-- The function `NewOpenAIStore` (store/openai.go:29-45). -/
def NewOpenAIStore (mq : MQ) (client : Option Client) (config : Option OpenAIConfig) : ocrStore :=
  let config :=
    match config with
    | none =>
      { MaxToken := 1024, Model := ChatModelGPT4o, Topic := OCRTopicDev,
        MessageType := OCRMessageTypeIdentifyOCR }
    | some c => c
  { mq := mq, c := client, cfg := config }

/-- A call a scan makes on a collaborator. -/
inductive Effect where
  /-- A completion request, `os.c.Chat.Completions.New`. -/
  | completion (params : ChatCompletionNewParams)
  /-- A publish call, `os.mq.Send`. -/
  | send (topic : String) (msg : OCREventMessage)
  /-- An error-level log line, `logging.Errorw`. -/
  | logError (msg : String) (err : GoError)
  deriving DecidableEq, Repr

/-- The request both scans send (store/openai.go:53-68 and 99-114): the system
message, and a user message made of the prompt and the image reference. -/
def completionParams (cfg : OpenAIConfig) (prompt link : String) : ChatCompletionNewParams :=
  { Model := cfg.Model
    MaxTokens := cfg.MaxToken
    Messages :=
      [ChatMessage.system SystemContent,
       ChatMessage.user [ContentPart.text prompt, ContentPart.imageURL link]]
    Format := ResponseFormat.jsonObject }

/-- The method `ScanName` (store/openai.go:47-88): its two results, and the
calls it made on its collaborators, in order. -/
def ScanName (os : ocrStore) (link : String) : (String × Option GoError) × List Effect :=
  match os.c with
  | none => (("", some (.errorf "openai client is not initialized")), [])
  | some client =>
    let params := completionParams os.cfg NamePrompt link
    match client params with
    | .error err => (("", some err), [.completion params])
    | .ok resp =>
      match resp.Choices with
      | [] => (("", some (.errorf "empty response choices from OCR")), [.completion params])
      | choice :: _ =>
        match unmarshalName choice.Content "" with
        | .error err => (("", some err), [.completion params])
        | .ok name => ((name, none), [.completion params])

/-- The method `ScanRawInfo` (store/openai.go:91-150): its two results, and
the calls it made on its collaborators, in order. `now` is what `time.Now()`
returns at the publish call. -/
def ScanRawInfo (os : ocrStore) (now : Nat) (userID link : String) (platformType : PlatformType) :
    (Option OCRRawInfo × Option GoError) × List Effect :=
  match os.c with
  | none => ((none, some (.errorf "openai client is not initialized")), [])
  | some client =>
    let prompt := GetInfoPrompt platformType
    let params := completionParams os.cfg prompt link
    match client params with
    | .error err => ((none, some err), [.completion params])
    | .ok resp =>
      match resp.Choices with
      | [] => ((none, some (.errorf "empty response choices from OCR")), [.completion params])
      | choice :: _ =>
        if choice.Content = "" then
          ((none, some (.errorf "empty response content from OCR")), [.completion params])
        else
          match unmarshalRawInfo choice.Content OCRRawInfo.zero with
          | .error err => ((none, some err), [.completion params])
          | .ok parsed =>
            let ocr := { parsed with IdentifyURL := some link }
            let msg : OCREventMessage :=
              { UserID := userID, Payload := ocr, CreatedAt := now,
                Type_ := os.cfg.MessageType, Source := platformType }
            match os.mq os.cfg.Topic msg with
            | some err =>
              ((some ocr, none),
                [.completion params, .send os.cfg.Topic msg,
                 .logError "Failed to send ocr result" err])
            | none => ((some ocr, none), [.completion params, .send os.cfg.Topic msg])


/-- The publish calls among the effects of a scan, in order: the topic and the
message of each. -/
def sentMessages : List Effect → List (String × OCREventMessage)
  | [] => []
  | .send topic msg :: es => (topic, msg) :: sentMessages es
  | _ :: es => sentMessages es

/-- The completion requests among the effects of a scan, in order. -/
def completionRequests : List Effect → List ChatCompletionNewParams
  | [] => []
  | .completion params :: es => params :: completionRequests es
  | _ :: es => completionRequests es

/-- A backend that answers every request with the same choices. -/
def stubClient (contents : List String) : Client :=
  fun _ => .ok { Choices := contents.map fun s => { Content := s } }

/-- A queue whose `Send` returns the same result for every message. -/
def stubMQ (result : Option GoError) : MQ :=
  fun _ _ => result

/-- Dropping blanks does not make a text longer. -/
theorem skipSpace_length (cs : List Char) : (skipSpace cs).length ≤ cs.length := by
  induction cs with
  | nil => simp [skipSpace]
  | cons c cs ih =>
    simp only [skipSpace]
    split
    · simp only [List.length_cons]; omega
    · exact Nat.le_refl _

/-- A string literal that is read takes at least one character of the text. -/
theorem readString_length : ∀ (cs : List Char) (skip : Nat) (acc : List Char) (s : String)
    (rest : List Char), readString cs skip acc = some (s, rest) → rest.length < cs.length := by
  intro cs
  induction cs with
  | nil => intro skip acc s rest h; simp [readString] at h
  | cons c cs ih =>
    intro skip acc s rest h
    cases skip with
    | succ n =>
      simp only [readString] at h
      have := ih n acc s rest h
      simp only [List.length_cons]; omega
    | zero =>
      simp only [readString] at h
      split at h
      · simp only [Option.some.injEq, Prod.mk.injEq] at h
        simp [← h.2]
      · split at h
        · split at h
          · have := ih _ _ s rest h
            simp only [List.length_cons]; omega
          · simp at h
        · split at h
          · simp at h
          · have := ih _ _ s rest h
            simp only [List.length_cons]; omega

/-- The text after the leading digits is no longer than the text. -/
theorem takeDigits_length (cs : List Char) : (takeDigits cs).2.length ≤ cs.length := by
  induction cs with
  | nil => simp [takeDigits]
  | cons c cs ih =>
    simp only [takeDigits]
    split
    · simp only [List.length_cons]; omega
    · exact Nat.le_refl _

/-- An integer part that is read takes at least one character. -/
theorem readInt_length (cs n rest : List Char) (h : readInt cs = some (n, rest)) :
    rest.length < cs.length := by
  cases cs with
  | nil => simp [readInt] at h
  | cons c cs =>
    simp only [readInt] at h
    have := takeDigits_length cs
    split at h
    · simp only [Option.some.injEq, Prod.mk.injEq] at h
      simp [← h.2]
    · split at h
      · simp only [Option.some.injEq, Prod.mk.injEq] at h
        simp only [← h.2, List.length_cons]; omega
      · simp at h

/-- The text after a fraction is no longer than the text. -/
theorem readFrac_length (cs n rest : List Char) (h : readFrac cs = some (n, rest)) :
    rest.length ≤ cs.length := by
  unfold readFrac at h
  split at h
  · rename_i cs2
    have := takeDigits_length cs2
    split at h
    · simp at h
    · simp only [Option.some.injEq, Prod.mk.injEq] at h
      simp only [← h.2, List.length_cons]; omega
  · simp only [Option.some.injEq, Prod.mk.injEq] at h
    simp [← h.2]

/-- The text after the digits of an exponent is no longer than the text. -/
theorem readExpDigits_length (pre cs n rest : List Char)
    (h : readExpDigits pre cs = some (n, rest)) : rest.length ≤ cs.length := by
  unfold readExpDigits at h
  have := takeDigits_length cs
  split at h
  · simp at h
  · simp only [Option.some.injEq, Prod.mk.injEq] at h
    simp only [← h.2]; omega

/-- The text after an exponent is no longer than the text. -/
theorem readExp_length (cs n rest : List Char) (h : readExp cs = some (n, rest)) :
    rest.length ≤ cs.length := by
  cases cs with
  | nil =>
    simp only [readExp, Option.some.injEq, Prod.mk.injEq] at h
    simp [← h.2]
  | cons e cs =>
    simp only [readExp] at h
    split at h
    · split at h
      · split at h
        · have := readExpDigits_length _ _ _ _ h
          simp only [List.length_cons]; omega
        · have := readExpDigits_length _ _ _ _ h
          simp only [List.length_cons] at this ⊢; omega
      · simp at h
    · simp only [Option.some.injEq, Prod.mk.injEq] at h
      simp [← h.2]

/-- An unsigned number that is read takes at least one character. -/
theorem readUnsigned_length (cs n rest : List Char) (h : readUnsigned cs = some (n, rest)) :
    rest.length < cs.length := by
  unfold readUnsigned at h
  split at h
  · simp at h
  · rename_i i r1 hi
    have h1 := readInt_length _ _ _ hi
    split at h
    · simp at h
    · rename_i f r2 hf
      have h2 := readFrac_length _ _ _ hf
      split at h
      · simp at h
      · rename_i e r3 he
        have h3 := readExp_length _ _ _ he
        simp only [Option.some.injEq, Prod.mk.injEq] at h
        rw [← h.2]; omega

/-- A number that is read takes at least one character. -/
theorem readNumber_length (cs n rest : List Char) (h : readNumber cs = some (n, rest)) :
    rest.length < cs.length := by
  unfold readNumber at h
  split at h
  · split at h
    · rename_i n2 r hu
      have := readUnsigned_length _ _ _ hu
      simp only [Option.some.injEq, Prod.mk.injEq] at h
      simp only [← h.2, List.length_cons]; omega
    · simp at h
  · exact readUnsigned_length _ _ _ h

/-- The text after the first character that is not a blank is shorter than the text. -/
theorem skipSpace_cons_length {cs : List Char} {d : Char} {rest : List Char}
    (h : skipSpace cs = d :: rest) : rest.length < cs.length := by
  have := skipSpace_length cs
  rw [h] at this
  simp only [List.length_cons] at this
  omega

/-- A value, a run of elements or a run of members that is read takes at least
one character of the text. -/
theorem read_length (F : Nat) :
    (∀ d cs v rest, readValue F d cs = some (v, rest) → rest.length < cs.length) ∧
    (∀ d cs acc v rest, readElems F d cs acc = some (v, rest) → rest.length < cs.length) ∧
    (∀ d cs acc v rest, readMembers F d cs acc = some (v, rest) → rest.length < cs.length) := by
  induction F with
  | zero =>
    refine ⟨?_, ?_, ?_⟩
    · intro d cs v rest h; rw [readValue] at h; exact absurd h (by simp)
    · intro d cs acc v rest h; rw [readElems] at h; exact absurd h (by simp)
    · intro d cs acc v rest h; rw [readMembers] at h; exact absurd h (by simp)
  | succ F ih =>
    obtain ⟨ihV, ihE, ihM⟩ := ih
    refine ⟨?_, ?_, ?_⟩
    · intro d cs v rest h
      cases cs with
      | nil => simp [readValue] at h
      | cons c cs =>
        simp only [readValue] at h
        split at h
        · split at h
          · simp at h
          · split at h
            · simp at h
            · rename_i e r hs
              have := skipSpace_cons_length hs
              split at h
              · simp only [Option.some.injEq, Prod.mk.injEq] at h
                simp only [← h.2, List.length_cons]; omega
              · have := ihM _ _ _ _ _ h
                simp only [List.length_cons] at this ⊢; omega
        · split at h
          · split at h
            · simp at h
            · split at h
              · simp at h
              · rename_i e r hs
                have := skipSpace_cons_length hs
                split at h
                · simp only [Option.some.injEq, Prod.mk.injEq] at h
                  simp only [← h.2, List.length_cons]; omega
                · have := ihE _ _ _ _ _ h
                  simp only [List.length_cons] at this ⊢; omega
          · split at h
            · split at h
              · rename_i s r hs
                have := readString_length _ _ _ _ _ hs
                simp only [Option.some.injEq, Prod.mk.injEq] at h
                simp only [← h.2, List.length_cons]; omega
              · simp at h
            · split at h
              · split at h
                · simp only [Option.some.injEq, Prod.mk.injEq] at h
                  simp only [← h.2, List.length_cons]; omega
                · simp at h
              · split at h
                · split at h
                  · simp only [Option.some.injEq, Prod.mk.injEq] at h
                    simp only [← h.2, List.length_cons]; omega
                  · simp at h
                · split at h
                  · split at h
                    · simp only [Option.some.injEq, Prod.mk.injEq] at h
                      simp only [← h.2, List.length_cons]; omega
                    · simp at h
                  · split at h
                    · rename_i n r hn
                      have := readNumber_length _ _ _ hn
                      simp only [Option.some.injEq, Prod.mk.injEq] at h
                      rw [← h.2]; exact this
                    · simp at h
    · intro d cs acc v rest h
      simp only [readElems] at h
      split at h
      · simp at h
      · rename_i v1 r1 hv
        have h1 := ihV _ _ _ _ hv
        split at h
        · simp at h
        · rename_i e r2 hs
          have h2 := skipSpace_cons_length hs
          split at h
          · have h3 := ihE _ _ _ _ _ h
            have h4 := skipSpace_length r2
            omega
          · split at h
            · simp only [Option.some.injEq, Prod.mk.injEq] at h
              rw [← h.2]; omega
            · simp at h
    · intro d cs acc v rest h
      cases cs with
      | nil => simp [readMembers] at h
      | cons q cs =>
        simp only [readMembers] at h
        split at h
        · split at h
          · simp at h
          · rename_i k r1 hk
            have h1 := readString_length _ _ _ _ _ hk
            split at h
            · simp at h
            · rename_i colon r2 hs
              have h2 := skipSpace_cons_length hs
              split at h
              · split at h
                · simp at h
                · rename_i v1 r3 hv
                  have h3 := ihV _ _ _ _ hv
                  have h3b := skipSpace_length r2
                  split at h
                  · simp at h
                  · rename_i e r4 hs4
                    have h4 := skipSpace_cons_length hs4
                    split at h
                    · have h5 := ihM _ _ _ _ _ h
                      have h6 := skipSpace_length r4
                      simp only [List.length_cons]; omega
                    · split at h
                      · simp only [Option.some.injEq, Prod.mk.injEq] at h
                        simp only [← h.2, List.length_cons]; omega
                      · simp at h
              · simp at h
        · simp at h

/-- Fuel: what is read with some fuel is read with any fuel that exceeds the
number of characters taken. -/
theorem read_fuel (F : Nat) :
    (∀ d cs v rest, readValue F d cs = some (v, rest) →
      ∀ f, cs.length < f + rest.length → readValue f d cs = some (v, rest)) ∧
    (∀ d cs acc v rest, readElems F d cs acc = some (v, rest) →
      ∀ f, cs.length < f + rest.length → readElems f d cs acc = some (v, rest)) ∧
    (∀ d cs acc v rest, readMembers F d cs acc = some (v, rest) →
      ∀ f, cs.length < f + rest.length → readMembers f d cs acc = some (v, rest)) := by
  induction F with
  | zero =>
    refine ⟨?_, ?_, ?_⟩
    · intro d cs v rest h; rw [readValue] at h; exact absurd h (by simp)
    · intro d cs acc v rest h; rw [readElems] at h; exact absurd h (by simp)
    · intro d cs acc v rest h; rw [readMembers] at h; exact absurd h (by simp)
  | succ F ih =>
    obtain ⟨ihV, ihE, ihM⟩ := ih
    refine ⟨?_, ?_, ?_⟩
    · intro d cs v rest h f hf
      have hlen := (read_length (F + 1)).1 _ _ _ _ h
      obtain ⟨f, rfl⟩ : ∃ g, f = g + 1 := ⟨f - 1, by omega⟩
      cases cs with
      | nil => exact absurd hlen (by simp)
      | cons c cs =>
        simp only [readValue] at h ⊢
        split at h
        · split at h
          · simp at h
          · split at h
            · simp at h
            · rename_i e r hs
              have := skipSpace_cons_length hs
              split at h
              · simp [*]
              · have := ihM _ _ _ _ _ h f (by simp only [List.length_cons] at hf ⊢; omega)
                simp [*]
        · split at h
          · split at h
            · simp at h
            · split at h
              · simp at h
              · rename_i e r hs
                have := skipSpace_cons_length hs
                split at h
                · simp [*]
                · have := ihE _ _ _ _ _ h f (by simp only [List.length_cons] at hf ⊢; omega)
                  simp [*]
          · simp [*]
    · intro d cs acc v rest h f hf
      have hlen := (read_length (F + 1)).2.1 _ _ _ _ _ h
      obtain ⟨f, rfl⟩ : ∃ g, f = g + 1 := ⟨f - 1, by omega⟩
      simp only [readElems] at h ⊢
      split at h
      · simp at h
      · rename_i v1 r1 hv
        have h1 := (read_length F).1 _ _ _ _ hv
        split at h
        · simp at h
        · rename_i e r2 hs
          have h2 := skipSpace_cons_length hs
          split at h
          · have h3 := (read_length F).2.1 _ _ _ _ _ h
            have h4 := skipSpace_length r2
            have hv2 := ihV _ _ _ _ hv f (by omega)
            have he2 := ihE _ _ _ _ _ h f (by omega)
            simp [*]
          · split at h
            · simp only [Option.some.injEq, Prod.mk.injEq] at h
              have hv2 := ihV _ _ _ _ hv f (by rw [← h.2] at hf; omega)
              simp [*]
            · simp at h
    · intro d cs acc v rest h f hf
      have hlen := (read_length (F + 1)).2.2 _ _ _ _ _ h
      obtain ⟨f, rfl⟩ : ∃ g, f = g + 1 := ⟨f - 1, by omega⟩
      cases cs with
      | nil => exact absurd hlen (by simp)
      | cons q cs =>
        simp only [readMembers] at h ⊢
        split at h
        · split at h
          · simp at h
          · rename_i k r1 hk
            have h1 := readString_length _ _ _ _ _ hk
            split at h
            · simp at h
            · rename_i colon r2 hs
              have h2 := skipSpace_cons_length hs
              split at h
              · split at h
                · simp at h
                · rename_i v1 r3 hv
                  have h3 := (read_length F).1 _ _ _ _ hv
                  have h3b := skipSpace_length r2
                  split at h
                  · simp at h
                  · rename_i e r4 hs4
                    have h4 := skipSpace_cons_length hs4
                    split at h
                    · have h5 := (read_length F).2.2 _ _ _ _ _ h
                      have h6 := skipSpace_length r4
                      simp only [List.length_cons] at hf
                      have hv2 := ihV _ _ _ _ hv f (by omega)
                      have hm2 := ihM _ _ _ _ _ h f (by omega)
                      simp [*]
                    · split at h
                      · simp only [Option.some.injEq, Prod.mk.injEq] at h
                        simp only [List.length_cons] at hf
                        have hv2 := ihV _ _ _ _ hv f (by rw [← h.2] at hf; omega)
                        simp [*]
                      · simp at h
              · simp at h
        · simp at h

/-- The fuel of `parseJSON` is enough: what any amount of fuel reads from a
text, `parseJSON` reads. -/
theorem parseJSON_fuel (data : String) (F : Nat) (v : JSON) (rest : List Char)
    (h : readValue F 0 (skipSpace data.data) = some (v, rest)) :
    readValue (data.data.length + 1) 0 (skipSpace data.data) = some (v, rest) := by
  have := skipSpace_length data.data
  exact (read_fuel F).1 _ _ _ _ h _ (by omega)


set_option maxRecDepth 100000 in
/-- The two hexadecimal digits the writer puts after `\u00` are read back as the
number they were made from. -/
theorem getu4_hexDigit : ∀ n, n < 256 →
    getu4 '0' '0' (hexDigit (n / 16)) (hexDigit (n % 16)) = some n := by
  decide

/-- Passing over the characters of an escape. -/
theorem readString_skip (n : Nat) : ∀ (pre rest acc : List Char), pre.length = n →
    readString (pre ++ rest) n acc = readString rest 0 acc := by
  induction n with
  | zero => intro pre rest acc h; simp [List.length_eq_zero.mp h]
  | succ n ih =>
    intro pre rest acc h
    cases pre with
    | nil => simp at h
    | cons c pre =>
      simp only [List.cons_append, readString]
      exact ih pre rest acc (by simpa using h)

/-- A `\u00xx` escape of a character below 256 is read back as that character. -/
theorem readString_u00 (c : Char) (h : c.toNat < 256) (rest acc : List Char) :
    readString ('\\' :: 'u' :: '0' :: '0' :: hexDigit (c.toNat / 16) ::
      hexDigit (c.toNat % 16) :: rest) 0 acc = readString rest 0 (acc ++ [c]) := by
  have hs : isSurrogate c.toNat = false := by
    simp [isSurrogate]; omega
  have hr : readEscape ('u' :: '0' :: '0' :: hexDigit (c.toNat / 16) ::
      hexDigit (c.toNat % 16) :: rest) = some (c, 5) := by
    simp [readEscape, getu4_hexDigit c.toNat h, hs, Char.ofNat_toNat]
  rw [readString]
  simp only [hr]
  simp [readString]

/-- What the writer puts for one character, the reader reads back as that
character. -/
theorem readString_escapeChar (c : Char) (rest acc : List Char) :
    readString (escapeChar c ++ rest) 0 acc = readString rest 0 (acc ++ [c]) := by
  unfold escapeChar
  split
  · rename_i h
    rcases h with h | h <;> subst h <;> simp [readString, readEscape, unescapeChar]
  · split
    · rename_i h; subst h; simp [readString, readEscape, unescapeChar]
    · split
      · rename_i h; subst h; simp [readString, readEscape, unescapeChar]
      · split
        · rename_i h; subst h; simp [readString, readEscape, unescapeChar]
        · split
          · rename_i h; subst h; simp [readString, readEscape, unescapeChar]
          · split
            · rename_i h; subst h; simp [readString, readEscape, unescapeChar]
            · split
              · rename_i h
                apply readString_u00
                rcases h with h | h | h | h
                · omega
                · subst h; decide
                · subst h; decide
                · subst h; decide
              · split
                · rename_i h
                  rcases h with h | h <;> subst h <;>
                    simp [readString, readEscape, getu4, hexVal, hexDigit, isSurrogate]
                · rename_i h1 h2 h3 h4 h5 h6 h7 h8
                  simp only [not_or] at h1 h7
                  simp [readString, h1.1, h1.2, h7.1]

/-- What the writer puts for the characters of a string, up to the closing
quote, the reader reads back as those characters. -/
theorem readString_escapeChars (cs rest acc : List Char) :
    readString (escapeChars cs ++ '\"' :: rest) 0 acc = some (String.mk (acc ++ cs), rest) := by
  induction cs generalizing acc with
  | nil => simp [escapeChars, readString]
  | cons c cs ih =>
    simp only [escapeChars, List.append_assoc]
    rw [readString_escapeChar, ih]
    simp

/-- A string literal made by `quote` is read back as the string. -/
theorem readString_quote (s : String) (rest : List Char) :
    ∃ body, quote s ++ rest = '\"' :: body ∧ readString body 0 [] = some (s, rest) := by
  refine ⟨escapeChars s.data ++ '\"' :: rest, by simp [quote], ?_⟩
  rw [readString_escapeChars]
  simp

set_option maxRecDepth 8000 in
/-- C1: `GetInfoPrompt` returns a non-empty prompt for each of `apen`, `nurse`
and `phar`, the three prompts are pairwise different, and for every other
string, the empty one included, it returns what it returns for `apen`. -/
theorem GetInfoPrompt_total :
    (GetInfoPrompt PlatformTypeApen ≠ "" ∧ GetInfoPrompt PlatformTypeNurse ≠ "" ∧
      GetInfoPrompt PlatformTypePhar ≠ "") ∧
    (GetInfoPrompt PlatformTypeApen ≠ GetInfoPrompt PlatformTypeNurse ∧
      GetInfoPrompt PlatformTypeApen ≠ GetInfoPrompt PlatformTypePhar ∧
      GetInfoPrompt PlatformTypeNurse ≠ GetInfoPrompt PlatformTypePhar) ∧
    (∀ p : PlatformType, p ≠ PlatformTypeApen → p ≠ PlatformTypeNurse →
      p ≠ PlatformTypePhar → GetInfoPrompt p = GetInfoPrompt PlatformTypeApen) ∧
    GetInfoPrompt "" = GetInfoPrompt PlatformTypeApen := by
  refine ⟨⟨by decide, by decide, by decide⟩, ⟨by decide, by decide, by decide⟩, ?_, by decide⟩
  intro p h1 h2 h3
  simp [GetInfoPrompt, h1, h2, h3]

/-- C2: on a store whose client pointer is nil, `ScanRawInfo` returns a nil
record and the error "openai client is not initialized", and makes no call at
all: no completion request and no `Send`. -/
theorem ScanRawInfo_nil_client (mq : MQ) (cfg : OpenAIConfig) (now : Nat)
    (userID link : String) (platformType : PlatformType) :
    ScanRawInfo ⟨mq, none, cfg⟩ now userID link platformType =
        ((none, some (GoError.errorf "openai client is not initialized")), []) ∧
      completionRequests (ScanRawInfo ⟨mq, none, cfg⟩ now userID link platformType).2 = [] ∧
      sentMessages (ScanRawInfo ⟨mq, none, cfg⟩ now userID link platformType).2 = [] := by
  simp [ScanRawInfo, completionRequests, sentMessages]

/-- C3: when the backend call succeeds, `ScanRawInfo` fails with the
empty-choices error if there is no choice, and with the empty-content error if
the content of the first choice is the empty string; the two errors differ,
and the empty-content error is not an error of the JSON reader. -/
theorem ScanRawInfo_empty_errors (mq : MQ) (client : Client) (cfg : OpenAIConfig) (now : Nat)
    (userID link : String) (platformType : PlatformType) :
    (∀ resp, client (completionParams cfg (GetInfoPrompt platformType) link) = .ok resp →
      resp.Choices = [] →
      (ScanRawInfo ⟨mq, some client, cfg⟩ now userID link platformType).1 =
        (none, some (GoError.errorf "empty response choices from OCR"))) ∧
    (∀ resp choice rest,
      client (completionParams cfg (GetInfoPrompt platformType) link) = .ok resp →
      resp.Choices = choice :: rest → choice.Content = "" →
      (ScanRawInfo ⟨mq, some client, cfg⟩ now userID link platformType).1 =
        (none, some (GoError.errorf "empty response content from OCR"))) ∧
    GoError.errorf "empty response choices from OCR" ≠
      GoError.errorf "empty response content from OCR" ∧
    GoError.errorf "empty response content from OCR" ≠ GoError.jsonSyntaxError ∧
    (∀ value field, GoError.errorf "empty response content from OCR" ≠
      GoError.jsonTypeError value field) := by
  refine ⟨?_, ?_, by decide, by decide, by intro v f; simp⟩
  · intro resp h1 h2
    simp [ScanRawInfo, h1, h2]
  · intro resp choice rest h1 h2 h3
    simp [ScanRawInfo, h1, h2, h3]

/-- Witness of C3: a backend with no choice and a backend with one choice of
empty content give the two errors. -/
theorem ScanRawInfo_empty_errors_witness :
    (ScanRawInfo ⟨stubMQ none, some (stubClient []), NewOpenAIStore (stubMQ none) none none |>.cfg⟩
        0 "u1" "http://img" PlatformTypeApen).1 =
      (none, some (GoError.errorf "empty response choices from OCR")) ∧
    (ScanRawInfo ⟨stubMQ none, some (stubClient [""]), NewOpenAIStore (stubMQ none) none none |>.cfg⟩
        0 "u1" "http://img" PlatformTypeApen).1 =
      (none, some (GoError.errorf "empty response content from OCR")) :=
  ⟨(ScanRawInfo_empty_errors _ _ _ _ _ _ _).1 _ rfl rfl,
   (ScanRawInfo_empty_errors _ _ _ _ _ _ _).2.1 _ ⟨""⟩ [] rfl rfl rfl⟩

/-- What a call of `ScanRawInfo` that returns a nil error went through: the
client is there, its call succeeded, the first choice has a content that is
not empty and that `json.Unmarshal` accepts, and the record returned is the
parsed one with `IdentifyURL` set to the image location. -/
theorem ScanRawInfo_success_inv (os : ocrStore) (now : Nat) (userID link : String)
    (platformType : PlatformType) (res : Option OCRRawInfo)
    (h : (ScanRawInfo os now userID link platformType).1 = (res, none)) :
    ∃ client resp choice rest parsed,
      os.c = some client ∧
      client (completionParams os.cfg (GetInfoPrompt platformType) link) = .ok resp ∧
      resp.Choices = choice :: rest ∧ choice.Content ≠ "" ∧
      unmarshalRawInfo choice.Content OCRRawInfo.zero = .ok parsed ∧
      res = some { parsed with IdentifyURL := some link } := by
  obtain ⟨mq, c, cfg⟩ := os
  cases c with
  | none => simp [ScanRawInfo] at h
  | some client =>
    cases hc : client (completionParams cfg (GetInfoPrompt platformType) link) with
    | error e => simp [ScanRawInfo, hc] at h
    | ok resp =>
      cases hch : resp.Choices with
      | nil => simp [ScanRawInfo, hc, hch] at h
      | cons choice rest =>
        by_cases he : choice.Content = ""
        · simp [ScanRawInfo, hc, hch, he] at h
        · cases hp : unmarshalRawInfo choice.Content OCRRawInfo.zero with
          | error e => simp [ScanRawInfo, hc, hch, he, hp] at h
          | ok parsed =>
            refine ⟨client, resp, choice, rest, parsed, rfl, hc, hch, he, hp, ?_⟩
            simp only [ScanRawInfo, hc, hch, he, hp, if_false] at h
            split at h <;> simp at h <;> exact h.symm

/-- C4: when `ScanRawInfo` returns a nil error, the record it returns has
`identify_url` set to the image location of the call, and each other field is
the field of the record that `json.Unmarshal` made of the content of the first
choice, so whatever the reply held under the key `identify_url` is gone. -/
theorem ScanRawInfo_identify_url (os : ocrStore) (now : Nat) (userID link : String)
    (platformType : PlatformType) (res : Option OCRRawInfo)
    (h : (ScanRawInfo os now userID link platformType).1 = (res, none)) :
    ∃ client resp choice rest parsed r,
      os.c = some client ∧
      client (completionParams os.cfg (GetInfoPrompt platformType) link) = .ok resp ∧
      resp.Choices = choice :: rest ∧
      unmarshalRawInfo choice.Content OCRRawInfo.zero = .ok parsed ∧
      res = some r ∧ r.IdentifyURL = some link ∧
      r.Name = parsed.Name ∧ r.Birthday = parsed.Birthday ∧ r.Position = parsed.Position ∧
      r.Department = parsed.Department ∧ r.Facility = parsed.Facility ∧
      r.ValidDate = parsed.ValidDate ∧ r.SpecialtyValidDate = parsed.SpecialtyValidDate := by
  obtain ⟨client, resp, choice, rest, parsed, h1, h2, h3, _, h5, h6⟩ :=
    ScanRawInfo_success_inv os now userID link platformType res h
  exact ⟨client, resp, choice, rest, parsed, _, h1, h2, h3, h5, h6, rfl, rfl, rfl, rfl, rfl,
    rfl, rfl, rfl⟩

/-- Witness of C4: three replies that parse, with the key `identify_url`
absent, null, and set to another string; each time the record returned holds
the image location of the call. The fourth reply is a physician's card with
five fields: they are returned as read, with the two dates nil. -/
theorem ScanRawInfo_identify_url_witness :
    (ScanRawInfo ⟨stubMQ none,
        some (stubClient ["\x7b\"name\":\"陳大文\",\"birthday\":\"1990-01-01\",\"position\":\"VS\",\"department\":\"內科\",\"facility\":\"台大醫院\"\x7d"]),
        ⟨1024, "gpt-4o", "wanderer-dev", "identify_ocr"⟩⟩ 0 "u1" "http://img" "apen").1 =
      (some ⟨some "http://img", some "陳大文", some "1990-01-01", some "VS", some "內科",
        some "台大醫院", none, none⟩, none) ∧
    (ScanRawInfo ⟨stubMQ none, some (stubClient ["\x7b\"name\":\"A\"\x7d"]),
        ⟨1024, "gpt-4o", "wanderer-dev", "identify_ocr"⟩⟩ 0 "u1" "http://img" "apen").1 =
      (some ⟨some "http://img", some "A", none, none, none, none, none, none⟩, none) ∧
    (ScanRawInfo ⟨stubMQ none, some (stubClient ["\x7b\"identify_url\":null,\"name\":\"A\"\x7d"]),
        ⟨1024, "gpt-4o", "wanderer-dev", "identify_ocr"⟩⟩ 0 "u1" "http://img" "apen").1 =
      (some ⟨some "http://img", some "A", none, none, none, none, none, none⟩, none) ∧
    (ScanRawInfo ⟨stubMQ none, some (stubClient ["\x7b\"identify_url\":\"http://other\",\"name\":\"A\"\x7d"]),
        ⟨1024, "gpt-4o", "wanderer-dev", "identify_ocr"⟩⟩ 0 "u1" "http://img" "apen").1 =
      (some ⟨some "http://img", some "A", none, none, none, none, none, none⟩, none) ∧
    ∃ client resp choice rest parsed r,
      some (stubClient ["\x7b\"identify_url\":\"http://other\",\"name\":\"A\"\x7d"]) = some client ∧
      client (completionParams ⟨1024, "gpt-4o", "wanderer-dev", "identify_ocr"⟩
        (GetInfoPrompt "apen") "http://img") = .ok resp ∧
      resp.Choices = choice :: rest ∧
      unmarshalRawInfo choice.Content OCRRawInfo.zero = .ok parsed ∧
      some (OCRRawInfo.mk (some "http://img") (some "A") none none none none none none) = some r ∧
      r.IdentifyURL = some "http://img" ∧
      r.Name = parsed.Name ∧ r.Birthday = parsed.Birthday ∧ r.Position = parsed.Position ∧
      r.Department = parsed.Department ∧ r.Facility = parsed.Facility ∧
      r.ValidDate = parsed.ValidDate ∧ r.SpecialtyValidDate = parsed.SpecialtyValidDate :=
  ⟨by decide, by decide, by decide, by decide,
   ScanRawInfo_identify_url
     ⟨stubMQ none, some (stubClient ["\x7b\"identify_url\":\"http://other\",\"name\":\"A\"\x7d"]),
       ⟨1024, "gpt-4o", "wanderer-dev", "identify_ocr"⟩⟩ 0 "u1" "http://img" "apen" _ (by decide)⟩

/-- The two results of `ScanRawInfo` are the same for every queue. -/
theorem ScanRawInfo_result_any_mq (mq mq2 : MQ) (c : Option Client) (cfg : OpenAIConfig)
    (now : Nat) (userID link : String) (platformType : PlatformType) :
    (ScanRawInfo ⟨mq, c, cfg⟩ now userID link platformType).1 =
      (ScanRawInfo ⟨mq2, c, cfg⟩ now userID link platformType).1 := by
  cases c with
  | none => simp [ScanRawInfo]
  | some client =>
    cases hc : client (completionParams cfg (GetInfoPrompt platformType) link) with
    | error e => simp [ScanRawInfo, hc]
    | ok resp =>
      cases hch : resp.Choices with
      | nil => simp [ScanRawInfo, hc, hch]
      | cons choice rest =>
        by_cases he : choice.Content = ""
        · simp [ScanRawInfo, hc, hch, he]
        · cases hp : unmarshalRawInfo choice.Content OCRRawInfo.zero with
          | error e => simp [ScanRawInfo, hc, hch, he, hp]
          | ok parsed =>
            simp only [ScanRawInfo, hc, hch, he, hp, if_false]
            split <;> split <;> rfl

/-- C5: what `ScanRawInfo` returns does not depend on the outcome of `Send`: a
run whose `Send` returns an error returns the same record and error as the run
whose `Send` returns nil, on the same backend reply; and when the reply
parses, a run whose `Send` fails still returns the parsed record and a nil
error. -/
theorem ScanRawInfo_send_swallowed (mqOk mqFail : MQ) (c : Option Client) (cfg : OpenAIConfig)
    (now : Nat) (userID link : String) (platformType : PlatformType) :
    ((∀ topic msg, mqOk topic msg = none) → (∀ topic msg, mqFail topic msg ≠ none) →
      (ScanRawInfo ⟨mqFail, c, cfg⟩ now userID link platformType).1 =
        (ScanRawInfo ⟨mqOk, c, cfg⟩ now userID link platformType).1) ∧
    (∀ client resp choice rest parsed,
      c = some client →
      client (completionParams cfg (GetInfoPrompt platformType) link) = .ok resp →
      resp.Choices = choice :: rest → choice.Content ≠ "" →
      unmarshalRawInfo choice.Content OCRRawInfo.zero = .ok parsed →
      (∀ topic msg, mqFail topic msg ≠ none) →
      (ScanRawInfo ⟨mqFail, c, cfg⟩ now userID link platformType).1 =
        (some { parsed with IdentifyURL := some link }, none)) := by
  refine ⟨fun _ _ => ScanRawInfo_result_any_mq _ _ _ _ _ _ _ _, ?_⟩
  intro client resp choice rest parsed h1 h2 h3 h4 h5 _
  subst h1
  simp only [ScanRawInfo, h2, h3, h4, h5, if_false]
  split <;> rfl

/-- Witness of C5: on a reply that parses, the run whose `Send` fails and the
run whose `Send` succeeds return the same parsed record and a nil error. -/
theorem ScanRawInfo_send_swallowed_witness :
    (ScanRawInfo ⟨stubMQ (some (GoError.external "queue down")),
        some (stubClient ["\x7b\"name\":\"A\",\"birthday\":null\x7d"]),
        ⟨1024, "gpt-4o", "wanderer-dev", "identify_ocr"⟩⟩ 0 "u1" "http://img" "nurse").1 =
      (ScanRawInfo ⟨stubMQ none,
        some (stubClient ["\x7b\"name\":\"A\",\"birthday\":null\x7d"]),
        ⟨1024, "gpt-4o", "wanderer-dev", "identify_ocr"⟩⟩ 0 "u1" "http://img" "nurse").1 ∧
    (ScanRawInfo ⟨stubMQ (some (GoError.external "queue down")),
        some (stubClient ["\x7b\"name\":\"A\",\"birthday\":null\x7d"]),
        ⟨1024, "gpt-4o", "wanderer-dev", "identify_ocr"⟩⟩ 0 "u1" "http://img" "nurse").1 =
      (some ⟨some "http://img", some "A", none, none, none, none, none, none⟩, none) :=
  ⟨(ScanRawInfo_send_swallowed (stubMQ none) (stubMQ (some (GoError.external "queue down")))
      _ _ _ _ _ _).1 (fun _ _ => rfl) (fun _ _ => by simp [stubMQ]),
   by decide⟩

/-- C10: no result comes with an error. When `ScanName` returns an error its
string is empty; when `ScanRawInfo` returns an error its record is nil, and
when it returns a nil error its record is not nil. Each failure reaches the
caller as an error: a nil client, an error of the backend call, a reply with
no choice, a first choice of empty content (for `ScanRawInfo`), and a content
that `json.Unmarshal` rejects. -/
theorem scan_no_partial_result (mq : MQ) (cfg : OpenAIConfig) (now : Nat)
    (userID link : String) (platformType : PlatformType) :
    (∀ c e, (ScanName ⟨mq, c, cfg⟩ link).1.2 = some e → (ScanName ⟨mq, c, cfg⟩ link).1.1 = "") ∧
    (∀ c e, (ScanRawInfo ⟨mq, c, cfg⟩ now userID link platformType).1.2 = some e →
      (ScanRawInfo ⟨mq, c, cfg⟩ now userID link platformType).1.1 = none) ∧
    (∀ c, (ScanRawInfo ⟨mq, c, cfg⟩ now userID link platformType).1.2 = none →
      ∃ r, (ScanRawInfo ⟨mq, c, cfg⟩ now userID link platformType).1.1 = some r) ∧
    ((ScanName ⟨mq, none, cfg⟩ link).1 =
        ("", some (GoError.errorf "openai client is not initialized")) ∧
      (ScanRawInfo ⟨mq, none, cfg⟩ now userID link platformType).1 =
        (none, some (GoError.errorf "openai client is not initialized"))) ∧
    (∀ client e,
      (client (completionParams cfg NamePrompt link) = .error e →
        (ScanName ⟨mq, some client, cfg⟩ link).1 = ("", some e)) ∧
      (client (completionParams cfg (GetInfoPrompt platformType) link) = .error e →
        (ScanRawInfo ⟨mq, some client, cfg⟩ now userID link platformType).1 = (none, some e))) ∧
    (∀ client,
      (client (completionParams cfg NamePrompt link) = .ok ⟨[]⟩ →
        (ScanName ⟨mq, some client, cfg⟩ link).1 =
          ("", some (GoError.errorf "empty response choices from OCR"))) ∧
      (client (completionParams cfg (GetInfoPrompt platformType) link) = .ok ⟨[]⟩ →
        (ScanRawInfo ⟨mq, some client, cfg⟩ now userID link platformType).1 =
          (none, some (GoError.errorf "empty response choices from OCR")))) ∧
    (∀ client rest,
      client (completionParams cfg (GetInfoPrompt platformType) link) = .ok ⟨⟨""⟩ :: rest⟩ →
      (ScanRawInfo ⟨mq, some client, cfg⟩ now userID link platformType).1 =
        (none, some (GoError.errorf "empty response content from OCR"))) ∧
    (∀ client content rest e,
      (client (completionParams cfg NamePrompt link) = .ok ⟨⟨content⟩ :: rest⟩ →
        unmarshalName content "" = .error e →
        (ScanName ⟨mq, some client, cfg⟩ link).1 = ("", some e)) ∧
      (client (completionParams cfg (GetInfoPrompt platformType) link) = .ok ⟨⟨content⟩ :: rest⟩ →
        content ≠ "" → unmarshalRawInfo content OCRRawInfo.zero = .error e →
        (ScanRawInfo ⟨mq, some client, cfg⟩ now userID link platformType).1 = (none, some e))) ∧
    (∀ content, parseJSON content = none →
      unmarshalName content "" = .error GoError.jsonSyntaxError ∧
      unmarshalRawInfo content OCRRawInfo.zero = .error GoError.jsonSyntaxError) := by
  refine ⟨?_, ?_, ?_, ?_, ?_, ?_, ?_, ?_, ?_⟩
  · intro c e h
    cases c with
    | none => simp [ScanName]
    | some client =>
      cases hc : client (completionParams cfg NamePrompt link) with
      | error e => simp [ScanName, hc]
      | ok resp =>
        cases hch : resp.Choices with
        | nil => simp [ScanName, hc, hch]
        | cons choice rest =>
          cases hp : unmarshalName choice.Content "" with
          | error e => simp [ScanName, hc, hch, hp]
          | ok name => simp [ScanName, hc, hch, hp] at h
  · intro c e h
    cases hr : (ScanRawInfo ⟨mq, c, cfg⟩ now userID link platformType).1.1 with
    | none => rfl
    | some r =>
      exfalso
      cases c with
      | none => simp [ScanRawInfo] at hr
      | some client =>
        cases hc : client (completionParams cfg (GetInfoPrompt platformType) link) with
        | error e => simp [ScanRawInfo, hc] at hr
        | ok resp =>
          cases hch : resp.Choices with
          | nil => simp [ScanRawInfo, hc, hch] at hr
          | cons choice rest =>
            by_cases he : choice.Content = ""
            · simp [ScanRawInfo, hc, hch, he] at hr
            · cases hp : unmarshalRawInfo choice.Content OCRRawInfo.zero with
              | error e => simp [ScanRawInfo, hc, hch, he, hp] at hr
              | ok parsed =>
                simp only [ScanRawInfo, hc, hch, he, hp, if_false] at h
                split at h <;> simp at h
  · intro c h
    obtain ⟨_, _, _, _, parsed, _, _, _, _, _, h6⟩ :=
      ScanRawInfo_success_inv ⟨mq, c, cfg⟩ now userID link platformType
        (ScanRawInfo ⟨mq, c, cfg⟩ now userID link platformType).1.1 (Prod.ext rfl h)
    exact ⟨_, h6⟩
  · simp [ScanName, ScanRawInfo]
  · intro client e
    constructor <;> intro h <;> simp [ScanName, ScanRawInfo, h]
  · intro client
    constructor <;> intro h <;> simp [ScanName, ScanRawInfo, h]
  · intro client rest h
    simp [ScanRawInfo, h]
  · intro client content rest e
    constructor
    · intro h h2
      simp [ScanName, h, h2]
    · intro h h2 h3
      simp [ScanRawInfo, h, h2, h3]
  · intro content h
    simp [unmarshalName, unmarshalRawInfo, h]

end Ocr
